import Mathlib

/-!
Verification of the Peony thought-lifecycle persistence engine.

This file gives a shallow embedding of the Go code under
`internal/storage` (store.go, migrate.go) and `internal/core`:

* lifecycle states, Thought and Event records (`internal/core`),
* the SQLite-backed store operations (`store.go`), modelled as pure
  functions over an explicit database value `Db`; each SQL statement is
  translated into the corresponding list operation, and transactions
  become `Except`-valued functions that either return the whole new
  database (commit) or an error (rollback, the caller keeps the original
  database),
* the Go `time.RFC3339Nano` textual encoding of UTC timestamps used for
  every stored timestamp column,
* the schema migrator (`migrate.go`), modelled on a schema-state record.

Wall-clock time (`time.Now()`) and the configured settle duration
(`core.SettleDuration`) are ambient inputs of the Go code; they are made
explicit parameters (`now`, `settle`) of the embedded operations.
Timestamps inside `Db` are kept as abstract instants (`Nat`); the textual
RFC3339Nano encoding applied when the engine stores them is modelled
separately by `formatRFC3339Nano`.
-/

namespace Peony

/-- Lifecycle states of a thought (`internal/core`: `StateCaptured` ..
`StateArchived`). -/
inductive State where
  | captured
  | resting
  | tended
  | evolved
  | released
  | archived
deriving DecidableEq, Repr

/-- Snapshot of a thought row (`core.Thought` / the `thoughts` table). -/
structure Thought where
  id : Int
  content : String
  currentState : State
  tendCounter : Nat
  createdAt : Nat
  updatedAt : Nat
  lastTendedAt : Option Nat
  eligibilityAt : Nat
  valence : Option Int
  energy : Option Int
deriving DecidableEq, Repr

/-- An append-only event row (`core.Event` / the `events` table).
The column called `at` in the schema is named `atTime` here because `at`
is reserved in Lean. -/
structure Event where
  id : Int
  thoughtId : Int
  kind : String
  atTime : Nat
  previousState : Option State
  nextState : Option State
  note : Option String
deriving DecidableEq, Repr

/-- The persisted database: the two tables in row order, plus the
`sqlite_sequence` counters backing the AUTOINCREMENT ids of both tables. -/
structure Db where
  thoughts : List Thought
  events : List Event
  thoughtSeq : Int
  eventSeq : Int
deriving DecidableEq, Repr

/-- `SELECT ... FROM thoughts WHERE id = ?` (the id is the primary key,
so at most one row matches; the model takes the first). -/
def Db.findThought (db : Db) (id : Int) : Option Thought :=
  db.thoughts.find? (fun t => t.id == id)

/-- The white-space test of Go's `strings.TrimSpace` (restricted to the
ASCII space characters that can occur here). -/
def isSpaceChar (c : Char) : Bool :=
  c == ' ' || c == '\t' || c == '\n' || c == '\r'

/-- Go `strings.TrimSpace`: remove leading and trailing white space. -/
def trimSpace (s : String) : String :=
  String.mk (((s.data.dropWhile isSpaceChar).reverse.dropWhile isSpaceChar).reverse)

/-- Go `strings.TrimSpace(s) == ""` test used by the store's guards. -/
def isBlank (s : String) : Bool :=
  trimSpace s == ""

/-- The note column value computed by the mutating operations:
`note != nil && strings.TrimSpace(*note) != ""` stores the note,
otherwise SQL NULL is stored. -/
def noteValue (note : Option String) : Option String :=
  match note with
  | some s => if isBlank s then none else some s
  | none => none

/-- The terminal-state test of `MarkThoughtTended` (store.go line 874):
`prev == StateEvolved || prev == StateReleased || prev == StateArchived`. -/
def isTerminal (s : State) : Bool :=
  s == .evolved || s == .released || s == .archived

/-- Insert `x` into `l` before the first element `y` with `le x y`. -/
def insertSorted (le : α → α → Bool) (x : α) : List α → List α
  | [] => [x]
  | y :: ys => if le x y then x :: y :: ys else y :: insertSorted le x ys

/-- Insertion sort; models a SQL `ORDER BY` clause whose key comparison
is the boolean relation `le`. -/
def sortByLe (le : α → α → Bool) : List α → List α
  | [] => []
  | x :: xs => insertSorted le x (sortByLe le xs)

/-- `ORDER BY at ASC, id ASC` on event rows. -/
def eventOrderLe (a b : Event) : Bool :=
  decide (a.atTime < b.atTime) || (decide (a.atTime = b.atTime) && decide (a.id ≤ b.id))

/-- `ORDER BY updated_at ASC, id ASC` on thought rows. -/
def thoughtPageLe (a b : Thought) : Bool :=
  decide (a.updatedAt < b.updatedAt) || (decide (a.updatedAt = b.updatedAt) && decide (a.id ≤ b.id))

/-- The row inserted by `Store.CreateThought` (store.go lines 44-49):
captured state, zero tend counter, `created_at` = `updated_at` = now,
`eligibility_at` = now + settle, NULL optional columns, and the next
AUTOINCREMENT id. -/
def createdThought (settle now : Nat) (db : Db) (content : String) : Thought :=
  { id := db.thoughtSeq + 1, content := content,
    currentState := State.captured, tendCounter := 0,
    createdAt := now, updatedAt := now, lastTendedAt := none,
    eligibilityAt := now + settle, valence := none, energy := none }

/-- `Store.CreateThought` (store.go lines 29-59): reject empty content,
insert the new captured row, and return the AUTOINCREMENT id assigned by
SQLite (`LastInsertId`). -/
def createThought (settle now : Nat) (db : Db) (content : String) :
    Except String (Int × Db) :=
  if content = "" then .error "create thought: content is empty"
  else
    .ok (db.thoughtSeq + 1,
      { db with
          thoughts := db.thoughts ++ [createdThought settle now db content],
          thoughtSeq := db.thoughtSeq + 1 })

/-- `Store.GetThought` (store.go lines 109-227): reject a non-positive
id, look the row up by id, and return it together with its events in
`ORDER BY at ASC, id ASC` order. -/
def getThought (db : Db) (id : Int) :
    Except String (Thought × List Event) :=
  if id ≤ 0 then .error "get thought: invalid thought ID"
  else
    match db.findThought id with
    | none => .error "get thought: not found"
    | some t =>
      .ok (t, sortByLe eventOrderLe (db.events.filter (fun e => e.thoughtId == id)))

/-- `Store.UpdateThoughtContent` (store.go lines 807-841; identical in
part_001): reject a non-positive id or blank content, run a single
`UPDATE thoughts SET content = ?, updated_at = ? WHERE id = ?`, and
report not-found when no row was affected.  No transaction is opened and
no event row is appended. -/
def updateThoughtContent (now : Nat) (db : Db) (id : Int) (content : String) :
    Except String Db :=
  if id ≤ 0 then .error "update thought content: invalid thought ID"
  else if isBlank content then .error "update thought content: content is empty"
  else if (db.thoughts.filter (fun t => t.id == id)).isEmpty then
    .error "update thought content: no rows updated"
  else
    .ok { db with
            thoughts := db.thoughts.map (fun t =>
              if t.id == id then { t with content := content, updatedAt := now } else t) }

/-- The database committed by the `MarkThoughtTended` transaction
(store.go lines 878-916): the `UPDATE thoughts SET current_state,
tend_counter + 1, last_tended_at, updated_at WHERE id = ?` followed by
the `INSERT INTO events` of one `state_change` row recording the
previous state `prev`. -/
def tendedDb (now : Nat) (db : Db) (id : Int) (note : Option String) (prev : State) : Db :=
  { db with
      thoughts := db.thoughts.map (fun u =>
        if u.id == id then
          { u with currentState := State.tended,
                   tendCounter := u.tendCounter + 1,
                   lastTendedAt := some now, updatedAt := now }
        else u),
      events := db.events ++
        [{ id := db.eventSeq + 1, thoughtId := id, kind := "state_change",
           atTime := now, previousState := some prev,
           nextState := some State.tended, note := noteValue note }],
      eventSeq := db.eventSeq + 1 }

/-- `Store.MarkThoughtTended` (store.go lines 844-922; identical in
part_001): inside one transaction, read the current state, reject a
missing row or a terminal state (`evolved`/`released`/`archived`),
otherwise commit `tendedDb`.  The function performs no `eligibility_at`
check. -/
def markThoughtTended (now : Nat) (db : Db) (id : Int) (note : Option String) :
    Except String Db :=
  if id ≤ 0 then .error "mark thought tended: invalid thought ID"
  else
    match db.findThought id with
    | none => .error "mark thought tended: not found"
    | some t =>
      if isTerminal t.currentState then
        .error "mark thought tended: thought is in terminal state"
      else
        .ok (tendedDb now db id note t.currentState)

/-- The thoughts table written by the post-tend transition (store.go
lines 972-1001): on `resting` the UPDATE also recomputes
`eligibility_at` = now + settle, otherwise only state and
`updated_at` change. -/
def resolvedThoughts (settle now : Nat) (db : Db) (id : Int) (next : State) :
    List Thought :=
  if next == State.resting then
    db.thoughts.map (fun u =>
      if u.id == id then
        { u with currentState := next, updatedAt := now,
                 eligibilityAt := now + settle }
      else u)
  else
    db.thoughts.map (fun u =>
      if u.id == id then { u with currentState := next, updatedAt := now }
      else u)

/-- The database committed by the post-tend transition: the state UPDATE
followed by the `INSERT INTO events` of one `state_change` row
(store.go lines 1003-1015). -/
def resolvedDb (settle now : Nat) (db : Db) (id : Int) (next : State)
    (note : Option String) (prev : State) : Db :=
  { db with
      thoughts := resolvedThoughts settle now db id next,
      events := db.events ++
        [{ id := db.eventSeq + 1, thoughtId := id, kind := "state_change",
           atTime := now, previousState := some prev,
           nextState := some next, note := noteValue note }],
      eventSeq := db.eventSeq + 1 }

/-- `Store.TransitionPostTendResolutionStrict` (store.go lines 925-1022;
identical in part_001): reject a non-positive id, a next state outside
{resting, evolved, released, archived}, a missing row, or a current
state other than `tended`; otherwise commit `resolvedDb`. -/
def transitionPostTendResolutionStrict (settle now : Nat) (db : Db) (id : Int)
    (next : State) (note : Option String) : Except String Db :=
  if id ≤ 0 then .error "post-tend transition: invalid thought ID"
  else if !(next == State.resting || next == State.evolved ||
            next == State.released || next == State.archived) then
    .error "post-tend transition: invalid next state"
  else
    match db.findThought id with
    | none => .error "post-tend transition: not found"
    | some t =>
      if !(t.currentState == State.tended) then
        .error "post-tend transition: thought is not in tended state"
      else
        .ok (resolvedDb settle now db id next note t.currentState)

/-- `Store.ToEvolve` (store.go lines 1024-1087; identical in part_001):
reject a non-positive id or a missing row; reject only the current state
`evolved` (the error message calls it a terminal state, but `released`
and `archived` are not checked); otherwise set the state to `evolved`
and `updated_at` = now and append one `state_change` event.  The
`RowsAffected == 0` branch of the Go code is unreachable after the row
was found inside the same transaction. -/
def toEvolve (now : Nat) (db : Db) (id : Int) : Except String Db :=
  if id ≤ 0 then .error "to evolve: invalid thought ID"
  else
    match db.findThought id with
    | none => .error "to evolve: not found"
    | some t =>
      if t.currentState == State.evolved then
        .error "to evolve: thought is in terminal state"
      else
        .ok { db with
                thoughts := db.thoughts.map (fun u =>
                  if u.id == id then { u with currentState := State.evolved, updatedAt := now }
                  else u),
                events := db.events ++
                  [{ id := db.eventSeq + 1, thoughtId := id, kind := "state_change",
                     atTime := now, previousState := some t.currentState,
                     nextState := some State.evolved, note := none }],
                eventSeq := db.eventSeq + 1 }

/-- `Store.ReleaseThought` (store.go lines 230-271): inside one
transaction delete the thought's events, delete the thought, and roll
the whole transaction back (reporting not-found) when no thought row was
deleted. -/
def releaseThought (db : Db) (id : Int) : Except String Db :=
  if id ≤ 0 then .error "release thought: invalid thought ID"
  else if (db.thoughts.filter (fun t => t.id == id)).isEmpty then
    .error "release thought: not found"
  else
    .ok { db with
            thoughts := db.thoughts.filter (fun t => !(t.id == id)),
            events := db.events.filter (fun e => !(e.thoughtId == id)) }

/-- The rows reported by `PRAGMA foreign_key_check` for the
`events.thought_id REFERENCES thoughts.id` constraint: events whose
owning thought does not exist. -/
def foreignKeyViolations (db : Db) : List Event :=
  db.events.filter (fun e => !(db.thoughts.any (fun t => t.id == e.thoughtId)))

/-- `Store.ReindexThoughtIDs` (store.go lines 274-370): map the thought
ids in ascending order to 1..N; move every mapped id (thoughts, then
events) to its temporary negative target to avoid collisions; flip the
negative ids back to positive; reset the AUTOINCREMENT sequence to the
new maximum id; run the referential-integrity check and roll back when
it reports any row. -/
def reindexThoughtIDs (db : Db) : Except String Db :=
  let olds := sortByLe (fun a b : Int => decide (a ≤ b)) (db.thoughts.map (fun t => t.id))
  let maps := olds.enum.map (fun p => (p.2, (p.1 : Int) + 1))
  if maps.isEmpty then .ok db
  else
    let ths1 := maps.foldl (fun ts m =>
      ts.map (fun t => if t.id == m.1 then { t with id := -m.2 } else t)) db.thoughts
    let evs1 := maps.foldl (fun es m =>
      es.map (fun e => if e.thoughtId == m.1 then { e with thoughtId := -m.2 } else e)) db.events
    let ths2 := ths1.map (fun t => if t.id < 0 then { t with id := -t.id } else t)
    let evs2 := evs1.map (fun e => if e.thoughtId < 0 then { e with thoughtId := -e.thoughtId } else e)
    let db2 : Db :=
      { thoughts := ths2, events := evs2,
        thoughtSeq := (ths2.map (fun t => t.id)).foldr max 0,
        eventSeq := db.eventSeq }
    if (foreignKeyViolations db2).isEmpty then .ok db2
    else .error "reindex thought ids: foreign_key_check failed"

/-- The Go scan loop of `ListThoughtsByPagination` builds `core.Thought`
from the five selected columns (id, content, current_state,
tend_counter, updated_at), leaving every other field at its Go zero
value. -/
def listedProjection (t : Thought) : Thought :=
  { id := t.id, content := t.content, currentState := t.currentState,
    tendCounter := t.tendCounter, createdAt := 0, updatedAt := t.updatedAt,
    lastTendedAt := none, eligibilityAt := 0, valence := none, energy := none }

/-- `Store.ListThoughtsByPagination` of store.go (lines 503-554): reject
a non-positive limit or negative offset, then page through thoughts with
`WHERE current_state != 'archived' ORDER BY updated_at ASC, id ASC
LIMIT ? OFFSET ?`. -/
def listThoughtsByPagination (db : Db) (limit offset : Int) :
    Except String (List Thought) :=
  if limit ≤ 0 then .error "list thoughts: limit must be > 0"
  else if offset < 0 then .error "list thoughts: offset must be >= 0"
  else
    .ok ((((sortByLe thoughtPageLe
        (db.thoughts.filter (fun t => !(t.currentState == State.archived)))).map
          listedProjection).drop offset.toNat).take limit.toNat)

/-- `Store.ListThoughtsByPagination` of part_001 (lines 356-406): the
same paging query without any `WHERE` clause, so archived thoughts are
listed as well. -/
def listThoughtsByPaginationPart001 (db : Db) (limit offset : Int) :
    Except String (List Thought) :=
  if limit ≤ 0 then .error "list thoughts: limit must be > 0"
  else if offset < 0 then .error "list thoughts: offset must be >= 0"
  else
    .ok ((((sortByLe thoughtPageLe db.thoughts).map
        listedProjection).drop offset.toNat).take limit.toNat)

/-- `Store.DidCountTendChange` (store.go lines 675-714): the last
observed tend-ready count persisted in a small temp file, modelled as
`Option Int` (`none` when the file is missing or unreadable, which the
code treats alike).  A missing value means "changed" and the value is
written; an equal stored value means "unchanged" and the file is left
alone; a different stored value is overwritten.  The result is the
returned boolean together with the persisted state after the call. -/
def didCountTendChange (st : Option Int) (n : Int) : Bool × Option Int :=
  match st with
  | none => (true, some n)
  | some prev => if prev == n then (false, some prev) else (true, some n)

end Peony

namespace Peony

/-! ### Schema migrator (migrate.go)

The schema state records which tables and indexes exist together with
the rows of `schema_migrations`.  Row data of the other tables is not
touched by the migrator and is not part of this record. -/

/-- `storage.SchemaVersion` (migrate.go line 9). -/
def schemaVersion : Nat := 2

/-- The shape of the persisted schema: existence flags for each table
and index created by the migrator, and the recorded migration versions. -/
structure SchemaDb where
  hasSchemaMigrations : Bool
  versions : List Nat
  hasThoughts : Bool
  hasEvents : Bool
  hasAppState : Bool
  idxThoughtsStateEligibility : Bool
  idxEventsThoughtIdAt : Bool
deriving DecidableEq, Repr

/-- `SELECT COALESCE(MAX(version), 0) FROM schema_migrations`. -/
def SchemaDb.currentVersion (db : SchemaDb) : Nat :=
  db.versions.foldr max 0

/-- `CREATE TABLE IF NOT EXISTS schema_migrations ...` (migrate.go
line 18): the table is created only when absent; a fresh table has no
rows. -/
def ensureSchemaMigrations (db : SchemaDb) : SchemaDb :=
  if db.hasSchemaMigrations then db
  else { db with hasSchemaMigrations := true, versions := [] }

/-- The DDL body of the migration transaction (migrate.go lines 43-101):
create the three tables and two indexes (`IF NOT EXISTS`) and insert the
new schema version row. -/
def applyMigrationDDL (db : SchemaDb) : SchemaDb :=
  { db with
      hasThoughts := true
      hasEvents := true
      hasAppState := true
      idxThoughtsStateEligibility := true
      idxEventsThoughtIdAt := true
      versions := db.versions ++ [schemaVersion] }

/-- `storage.Migrate` (migrate.go): ensure `schema_migrations` exists,
read the recorded version, return unchanged when already current,
otherwise apply all DDL and record the new version inside one
transaction. -/
def migrate (db : SchemaDb) : SchemaDb :=
  if schemaVersion ≤ (ensureSchemaMigrations db).currentVersion then
    ensureSchemaMigrations db
  else
    applyMigrationDDL (ensureSchemaMigrations db)

end Peony

namespace Peony

/-! ### The RFC3339Nano timestamp encoding

Every stored timestamp is produced by
`time.Now().UTC().Format(time.RFC3339Nano)` (store.go lines 40-42 and
every other mutation).  Go's `.999999999` fraction directive prints the
fractional second only when it is non-zero and strips its trailing
zeros, so the encoding is not fixed-width. -/

/-- A wall-clock UTC instant as Go's formatter sees it. -/
structure GoTime where
  year : Nat
  month : Nat
  day : Nat
  hour : Nat
  minute : Nat
  second : Nat
  nanos : Nat
deriving DecidableEq, Repr

/-- Left-pad the decimal representation of `n` with zeros to width `w`
(Go zero-padded verbs such as `01`, `02`, `2006`). -/
def padZeros (w : Nat) (n : Nat) : String :=
  String.mk (List.replicate (w - (toString n).length) '0') ++ toString n

/-- Strip trailing `'0'` characters (the trim step of Go's
`.999999999` fraction directive). -/
def dropTrailingZeros (s : String) : String :=
  String.mk ((s.data.reverse.dropWhile (fun c => c == '0')).reverse)

/-- Go's `.999999999` fraction: empty for a whole second, otherwise a
dot followed by the 9-digit nanosecond field with trailing zeros
removed. -/
def fracRFC3339Nano (nanos : Nat) : String :=
  if nanos == 0 then "" else "." ++ dropTrailingZeros (padZeros 9 nanos)

/-- `t.Format(time.RFC3339Nano)` for a UTC time: layout
`2006-01-02T15:04:05.999999999Z07:00`, where a UTC offset prints as
`Z`. -/
def formatRFC3339Nano (t : GoTime) : String :=
  padZeros 4 t.year ++ "-" ++ padZeros 2 t.month ++ "-" ++ padZeros 2 t.day ++ "T" ++
    padZeros 2 t.hour ++ ":" ++ padZeros 2 t.minute ++ ":" ++ padZeros 2 t.second ++
    fracRFC3339Nano t.nanos ++ "Z"

/-- Strict lexicographic order on character lists by code point; on the
ASCII timestamp strings this is exactly the byte-wise (memcmp) TEXT
comparison SQLite applies to `eligibility_at <= ?`. -/
def charListLt : List Char → List Char → Bool
  | [], [] => false
  | [], _ :: _ => true
  | _ :: _, [] => false
  | a :: as, b :: bs =>
    if a.val < b.val then true
    else if b.val < a.val then false
    else charListLt as bs

/-- Strict lexicographic (byte-wise, for ASCII) order on strings. -/
def strLt (a b : String) : Bool :=
  charListLt a.data b.data

/-- Chronological strict order of two instants: lexicographic on the
calendar fields down to nanoseconds. -/
def chronoLt (a b : GoTime) : Bool :=
  if a.year ≠ b.year then decide (a.year < b.year)
  else if a.month ≠ b.month then decide (a.month < b.month)
  else if a.day ≠ b.day then decide (a.day < b.day)
  else if a.hour ≠ b.hour then decide (a.hour < b.hour)
  else if a.minute ≠ b.minute then decide (a.minute < b.minute)
  else if a.second ≠ b.second then decide (a.second < b.second)
  else decide (a.nanos < b.nanos)

end Peony

namespace Peony

/-! ### Concrete inputs used by the claim theorems -/

/-- A thought row with the given id, content, state and eligibility and
default remaining columns. -/
def mkThought (id : Int) (content : String) (st : State) (elig : Nat) : Thought :=
  { id := id, content := content, currentState := st, tendCounter := 0,
    createdAt := 0, updatedAt := 0, lastTendedAt := none,
    eligibilityAt := elig, valence := none, energy := none }

/-- A captured thought that only becomes tend-eligible at instant 10. -/
def c1Thought : Thought := mkThought 1 "not yet eligible" State.captured 10

/-- Store holding only `c1Thought`. -/
def c1Db : Db := { thoughts := [c1Thought], events := [], thoughtSeq := 1, eventSeq := 0 }

/-- A resting, already eligible thought used to exercise the success
path of mark-tended. -/
def c1wThought : Thought := mkThought 1 "eligible" State.resting 0

/-- Store holding only `c1wThought`. -/
def c1wDb : Db := { thoughts := [c1wThought], events := [], thoughtSeq := 1, eventSeq := 0 }

/-- A thought in the terminal state `released`. -/
def c2Thought : Thought := mkThought 1 "already released" State.released 0

/-- Store holding only `c2Thought`. -/
def c2Db : Db := { thoughts := [c2Thought], events := [], thoughtSeq := 1, eventSeq := 0 }

/-- A captured thought whose content gets rewritten. -/
def c3Thought : Thought := mkThought 1 "old content" State.captured 0

/-- Store holding `c3Thought` and one prior event. -/
def c3Db : Db :=
  { thoughts := [c3Thought],
    events := [{ id := 1, thoughtId := 1, kind := "captured", atTime := 0,
                 previousState := none, nextState := some State.captured, note := none }],
    thoughtSeq := 1, eventSeq := 1 }

/-- Reindex scenario: thoughts with ids 1..4; events for thoughts 1, 3
and two events for thought 4. -/
def c5Db : Db :=
  { thoughts :=
      [mkThought 1 "alpha" State.captured 0,
       mkThought 2 "beta" State.resting 0,
       mkThought 3 "gamma" State.captured 0,
       mkThought 4 "delta" State.tended 0],
    events :=
      [{ id := 1, thoughtId := 1, kind := "captured", atTime := 0,
         previousState := none, nextState := some State.captured, note := none },
       { id := 2, thoughtId := 3, kind := "captured", atTime := 1,
         previousState := none, nextState := some State.captured, note := none },
       { id := 3, thoughtId := 4, kind := "captured", atTime := 2,
         previousState := none, nextState := some State.captured, note := none },
       { id := 4, thoughtId := 4, kind := "state_change", atTime := 3,
         previousState := some State.captured, nextState := some State.tended, note := none }],
    thoughtSeq := 4, eventSeq := 4 }

/-- A tended thought used to exercise the resolve success path. -/
def c6Thought : Thought := mkThought 1 "under review" State.tended 0

/-- Store holding only `c6Thought`. -/
def c6Db : Db := { thoughts := [c6Thought], events := [], thoughtSeq := 1, eventSeq := 0 }

/-- Empty store used for the create/get round trip. -/
def c7Db : Db := { thoughts := [], events := [], thoughtSeq := 0, eventSeq := 0 }

/-- Store holding one archived and one captured thought, on which the
two listing variants disagree. -/
def c10Db : Db :=
  { thoughts := [mkThought 1 "hidden" State.archived 0, mkThought 2 "visible" State.captured 0],
    events := [], thoughtSeq := 2, eventSeq := 0 }

/-- The instants of the C4 counterexample: 0.5s and 0.55s past the same
second. -/
def c4TimeA : GoTime := { year := 2026, month := 1, day := 1, hour := 0, minute := 0, second := 5, nanos := 500000000 }

/-- Second instant of the C4 counterexample, 50 milliseconds later. -/
def c4TimeB : GoTime := { year := 2026, month := 1, day := 1, hour := 0, minute := 0, second := 5, nanos := 550000000 }

/-- Result of `markThoughtTended 5 c1Db 1 none`: the ineligible captured
thought was still marked tended. -/
def c1DbAfter : Db :=
  { thoughts := [{ c1Thought with
      currentState := State.tended,
      tendCounter := 1,
      lastTendedAt := some 5,
      updatedAt := 5 }],
    events := [{ id := 1, thoughtId := 1, kind := "state_change", atTime := 5,
                 previousState := some State.captured, nextState := some State.tended,
                 note := none }],
    thoughtSeq := 1, eventSeq := 1 }

/-- Result of `markThoughtTended 5 c1wDb 1 none` on the eligible resting
thought. -/
def c1wDbAfter : Db :=
  { thoughts := [{ c1wThought with
      currentState := State.tended,
      tendCounter := 1,
      lastTendedAt := some 5,
      updatedAt := 5 }],
    events := [{ id := 1, thoughtId := 1, kind := "state_change", atTime := 5,
                 previousState := some State.resting, nextState := some State.tended,
                 note := none }],
    thoughtSeq := 1, eventSeq := 1 }

/-- Result of `toEvolve 7 c2Db 1`: the released thought was moved to
`evolved`. -/
def c2DbAfter : Db :=
  { thoughts := [{ c2Thought with currentState := State.evolved, updatedAt := 7 }],
    events := [{ id := 1, thoughtId := 1, kind := "state_change", atTime := 7,
                 previousState := some State.released, nextState := some State.evolved,
                 note := none }],
    thoughtSeq := 1, eventSeq := 1 }

/-- Result of `updateThoughtContent 5 c3Db 1 "new content"`: the
snapshot changed, the event log did not. -/
def c3DbAfter : Db :=
  { thoughts := [{ c3Thought with content := "new content", updatedAt := 5 }],
    events := c3Db.events,
    thoughtSeq := 1, eventSeq := 1 }

/-- Result of `releaseThought c5Db 3`: thought 3 and its event removed. -/
def c5DbDel : Db :=
  { thoughts :=
      [mkThought 1 "alpha" State.captured 0,
       mkThought 2 "beta" State.resting 0,
       mkThought 4 "delta" State.tended 0],
    events :=
      [{ id := 1, thoughtId := 1, kind := "captured", atTime := 0,
         previousState := none, nextState := some State.captured, note := none },
       { id := 3, thoughtId := 4, kind := "captured", atTime := 2,
         previousState := none, nextState := some State.captured, note := none },
       { id := 4, thoughtId := 4, kind := "state_change", atTime := 3,
         previousState := some State.captured, nextState := some State.tended, note := none }],
    thoughtSeq := 4, eventSeq := 4 }

/-- Result of `reindexThoughtIDs c5DbDel`: ids compacted to 1..3, the
events of old thought 4 rewritten to new id 3, and the id generator
reset to the new maximum. -/
def c5DbRe : Db :=
  { thoughts :=
      [mkThought 1 "alpha" State.captured 0,
       mkThought 2 "beta" State.resting 0,
       mkThought 3 "delta" State.tended 0],
    events :=
      [{ id := 1, thoughtId := 1, kind := "captured", atTime := 0,
         previousState := none, nextState := some State.captured, note := none },
       { id := 3, thoughtId := 3, kind := "captured", atTime := 2,
         previousState := none, nextState := some State.captured, note := none },
       { id := 4, thoughtId := 3, kind := "state_change", atTime := 3,
         previousState := some State.captured, nextState := some State.tended, note := none }],
    thoughtSeq := 3, eventSeq := 4 }

/-- Result of `transitionPostTendResolutionStrict 9 7 c6Db 1 .resting
none`: the tended thought rests again with a fresh eligibility. -/
def c6DbAfter : Db :=
  { thoughts := [{ c6Thought with
      currentState := State.resting,
      updatedAt := 7,
      eligibilityAt := 16 }],
    events := [{ id := 1, thoughtId := 1, kind := "state_change", atTime := 7,
                 previousState := some State.tended, nextState := some State.resting,
                 note := none }],
    thoughtSeq := 1, eventSeq := 1 }

/-- The page returned for `c10Db` by the store.go listing: only the
non-archived thought, projected onto the five selected columns. -/
def c10Listed : List Thought := [mkThought 2 "visible" State.captured 0]

end Peony

namespace Peony

/-! ### Helper lemmas -/

theorem mem_insertSorted (le : α → α → Bool) (x : α) (l : List α) (a : α) :
    a ∈ insertSorted le x l ↔ a = x ∨ a ∈ l := by
  induction l with
  | nil => simp [insertSorted]
  | cons y ys ih =>
    unfold insertSorted
    split
    · simp
    · simp only [List.mem_cons, ih]
      tauto

theorem mem_sortByLe (le : α → α → Bool) (l : List α) (a : α) :
    a ∈ sortByLe le l ↔ a ∈ l := by
  induction l with
  | nil => simp [sortByLe]
  | cons x xs ih => simp [sortByLe, mem_insertSorted, ih]

theorem find?_map_updateById (l : List Thought) (id : Int) (f : Thought → Thought)
    (hf : ∀ u, (f u).id = u.id) (t : Thought)
    (h : l.find? (fun u => u.id == id) = some t) :
    (l.map (fun u => if u.id == id then f u else u)).find? (fun u => u.id == id)
      = some (f t) := by
  induction l with
  | nil => simp at h
  | cons a l ih =>
    simp only [List.map_cons]
    by_cases ha : a.id = id
    · have hb : (a.id == id) = true := by simp [ha]
      have hfb : ((f a).id == id) = true := by rw [hf]; exact hb
      simp only [List.find?_cons, hb, if_true] at h
      have hat : a = t := by injection h
      subst hat
      simp [List.find?_cons, hb, hfb]
    · have hb : (a.id == id) = false := by simp [ha]
      simp only [List.find?_cons, hb, Bool.false_eq_true, if_false] at h
      simp only [List.find?_cons, hb, Bool.false_eq_true, if_false]
      exact ih h

theorem find?_append_right (p : α → Bool) (l : List α) (x : α)
    (h : ∀ y ∈ l, p y = false) (hx : p x = true) :
    (l ++ [x]).find? p = some x := by
  induction l with
  | nil => simp [List.find?, hx]
  | cons a l ih =>
    simp only [List.cons_append]
    rw [List.find?_cons_of_neg _ (by simp [h a (by simp)])]
    exact ih (fun y hy => h y (by simp [hy]))

theorem currentVersion_append_le {l : List Nat} {v : Nat} :
    v ≤ (l ++ [v]).foldr max 0 := by
  induction l with
  | nil => simp
  | cons a l ih => exact le_trans ih (le_max_right a _)

theorem ensureSchemaMigrations_has (db : SchemaDb) :
    (ensureSchemaMigrations db).hasSchemaMigrations = true := by
  unfold ensureSchemaMigrations
  split
  · assumption
  · rfl

theorem ensureSchemaMigrations_of_has {db : SchemaDb}
    (h : db.hasSchemaMigrations = true) : ensureSchemaMigrations db = db := by
  unfold ensureSchemaMigrations
  simp [h]

theorem migrate_hasSchemaMigrations (db : SchemaDb) :
    (migrate db).hasSchemaMigrations = true := by
  unfold migrate
  split
  · exact ensureSchemaMigrations_has db
  · exact ensureSchemaMigrations_has db

theorem migrate_currentVersion_ge (db : SchemaDb) :
    schemaVersion ≤ (migrate db).currentVersion := by
  unfold migrate
  split
  · assumption
  · exact currentVersion_append_le

end Peony

namespace Peony

/-! ### Claim theorems -/

/-- **C8**: Running the Migrator twice in sequence is idempotent: the
second invocation sees the recorded schema version already current,
performs no schema change, and the schema version and table definitions
after two runs equal those after one run. -/
theorem c8_migrate_idempotent (db : SchemaDb) :
    migrate (migrate db) = migrate db := by
  have h1 := migrate_hasSchemaMigrations db
  have h2 := migrate_currentVersion_ge db
  revert h1 h2
  generalize migrate db = d
  intro h1 h2
  unfold migrate
  rw [ensureSchemaMigrations_of_has h1]
  simp [h2]

/-- **C9**: `did-count-change` follows last-observed-value semantics and
the persisted value after every call equals the supplied count: starting
from no persisted value, `did-count-change(5)` returns `true`, an
immediately following `did-count-change(5)` returns `false`, and a
following `did-count-change(7)` returns `true`; after every call the
persisted last-observed count is the supplied count, whatever the
outcome. -/
theorem c9_did_count_change :
    (∀ st n, (didCountTendChange st n).2 = some n) ∧
    didCountTendChange none 5 = (true, some 5) ∧
    didCountTendChange (didCountTendChange none 5).2 5 = (false, some 5) ∧
    didCountTendChange (didCountTendChange (didCountTendChange none 5).2 5).2 7
      = (true, some 7) := by
  refine ⟨?_, by decide, by decide, by decide⟩
  intro st n
  cases st with
  | none => rfl
  | some prev =>
    by_cases h : prev = n
    · simp [didCountTendChange, h]
    · simp [didCountTendChange, h]

/-- **C2** (code bug): `ToEvolve` only rejects the current state
`evolved`, so a thought in the terminal state `released` is transitioned
to `evolved`; the operation succeeds and changes the state, although the
claim (and the function's own terminal-state error message) requires
every terminal state to be rejected unchanged. -/
theorem c2_to_evolve_leaves_terminal_state :
    c2Thought.currentState = State.released ∧
    c2Db.findThought 1 = some c2Thought ∧
    toEvolve 7 c2Db 1 = .ok c2DbAfter ∧
    c2DbAfter.findThought 1
      = some { c2Thought with currentState := State.evolved, updatedAt := 7 } := by
  exact ⟨rfl, rfl, rfl, rfl⟩

/-- **C4** (code bug): the engine stores timestamps with Go's
`time.RFC3339Nano`, which is not fixed-precision: trailing fractional
zeros are trimmed, so 0.5s prints as ".5" while 0.55s prints as ".55",
and the string `"...05.55Z"` sorts before `"...05.5Z"` although it is
chronologically later — the lexicographic order of the stored encodings
does not equal the chronological order. -/
theorem c4_rfc3339nano_not_lexically_sortable :
    chronoLt c4TimeA c4TimeB = true ∧
    formatRFC3339Nano c4TimeA = "2026-01-01T00:00:05.5Z" ∧
    formatRFC3339Nano c4TimeB = "2026-01-01T00:00:05.55Z" ∧
    strLt (formatRFC3339Nano c4TimeB) (formatRFC3339Nano c4TimeA) = true ∧
    strLt (formatRFC3339Nano c4TimeA) (formatRFC3339Nano c4TimeB) = false := by
  refine ⟨by decide, by decide, by decide, by decide, by decide⟩

/-- **C5**: starting from thoughts with ids {1,2,3,4}, deleting id 3 and
reindexing yields exactly ids {1,2,3} in the original relative order,
every event that referenced old id 4 now references new id 3, and the
referential-integrity check afterwards reports zero violations. -/
theorem c5_reindex_scenario :
    releaseThought c5Db 3 = .ok c5DbDel ∧
    reindexThoughtIDs c5DbDel = .ok c5DbRe ∧
    c5DbRe.thoughts.map (fun t => t.id) = [1, 2, 3] ∧
    c5DbRe.thoughts.map (fun t => t.content) = ["alpha", "beta", "delta"] ∧
    c5DbDel.events.map (fun e => e.thoughtId) = [1, 4, 4] ∧
    c5DbRe.events.map (fun e => e.thoughtId) = [1, 3, 3] ∧
    foreignKeyViolations c5DbRe = [] := by
  exact ⟨rfl, rfl, by decide, by decide, by decide, by decide, by decide⟩

end Peony

namespace Peony

/-- **C1** (counterexample): at instant 5 the captured thought 1 is not
yet tend-eligible (`eligibility_at` = 10 > 5), yet `MarkThoughtTended`
succeeds, so the claim that the operation fails with an
invalid-transition error whenever the thought is not yet eligible is
false on the code. -/
theorem c1_counterexample_ineligible_tend_succeeds :
    c1Db.findThought 1 = some c1Thought ∧
    c1Thought.currentState = State.captured ∧
    ¬ (c1Thought.eligibilityAt ≤ 5) ∧
    markThoughtTended 5 c1Db 1 none = .ok c1DbAfter :=
  ⟨rfl, rfl, by decide, rfl⟩

/-- **C1** (amended): `mark-tended(id)` on an existing thought succeeds
exactly when the current state is non-terminal (`captured`, `resting` or
`tended`); `eligibility_at` is never consulted; on success it sets
`current_state` to `tended`, increments `tend_counter` by exactly 1,
sets `last_tended_at` to now, and appends exactly one event; in a
terminal state it fails with an invalid-transition error and, the
transaction rolling back, the store is unchanged. -/
theorem c1_mark_tended_amended (now : Nat) (db : Db) (id : Int) (note : Option String)
    (t : Thought) (hid : 0 < id) (hfind : db.findThought id = some t) :
    ((∃ e, markThoughtTended now db id note = .error e) ↔
      isTerminal t.currentState = true) ∧
    (∀ db', markThoughtTended now db id note = .ok db' →
        db'.findThought id = some { t with
          currentState := State.tended,
          tendCounter := t.tendCounter + 1,
          lastTendedAt := some now,
          updatedAt := now } ∧
        db'.events.length = db.events.length + 1) := by
  have hid2 : ¬ id ≤ 0 := not_le.mpr hid
  have hred : markThoughtTended now db id note =
      (if isTerminal t.currentState then
        Except.error "mark thought tended: thought is in terminal state"
      else Except.ok (tendedDb now db id note t.currentState)) := by
    unfold markThoughtTended
    rw [if_neg hid2, hfind]
  rw [hred]
  by_cases ht : isTerminal t.currentState
  · rw [if_pos ht]
    constructor
    · simp [ht]
    · intro db' hdb
      exact Except.noConfusion hdb
  · rw [if_neg ht]
    constructor
    · constructor
      · rintro ⟨e, he⟩
        exact Except.noConfusion he
      · intro hterm
        exact absurd hterm ht
    · intro db' hdb
      injection hdb with hdb
      subst hdb
      constructor
      · unfold tendedDb Db.findThought
        exact find?_map_updateById db.thoughts id
          (fun u => { u with currentState := State.tended,
                             tendCounter := u.tendCounter + 1,
                             lastTendedAt := some now, updatedAt := now })
          (fun u => rfl) t hfind
      · simp [tendedDb]

/-- Witness for the amended C1 theorem on the concrete store `c1wDb`
holding an eligible resting thought. -/
theorem c1_mark_tended_amended_witness :
    c1wDbAfter.findThought 1 = some { c1wThought with
      currentState := State.tended,
      tendCounter := c1wThought.tendCounter + 1,
      lastTendedAt := some 5,
      updatedAt := 5 } ∧
    c1wDbAfter.events.length = c1wDb.events.length + 1 :=
  (c1_mark_tended_amended 5 c1wDb 1 none c1wThought (by decide) rfl).2 c1wDbAfter rfl

/-- **C3** (counterexample): `updateThoughtContent` succeeds on thought
1 of `c3Db` yet appends no Event row: the event log after the call
equals the log before, not one row longer as claimed. -/
theorem c3_counterexample_no_event_appended :
    updateThoughtContent 5 c3Db 1 "new content" = .ok c3DbAfter ∧
    c3DbAfter.events.length = c3Db.events.length :=
  ⟨rfl, rfl⟩

/-- **C3** (amended): every successful `update-content(id, content)`
call writes the new Thought snapshot (content and `updated_at`) with a
single UPDATE statement and appends no Event row: the event log and the
event id sequence are unchanged; on any failure the `Except` result
carries no new state, so the prior snapshot and the event log are both
kept. -/
theorem c3_update_content_amended (now : Nat) (db : Db) (id : Int) (content : String)
    (db' : Db) (h : updateThoughtContent now db id content = .ok db') :
    db'.events = db.events ∧
    db'.eventSeq = db.eventSeq ∧
    (∀ t, db.findThought id = some t →
        db'.findThought id = some { t with content := content, updatedAt := now }) := by
  unfold updateThoughtContent at h
  by_cases h1 : id ≤ 0
  · rw [if_pos h1] at h
    exact Except.noConfusion h
  rw [if_neg h1] at h
  by_cases h2 : isBlank content = true
  · rw [if_pos h2] at h
    exact Except.noConfusion h
  rw [if_neg h2] at h
  by_cases h3 : (db.thoughts.filter (fun t => t.id == id)).isEmpty = true
  · rw [if_pos h3] at h
    exact Except.noConfusion h
  rw [if_neg h3] at h
  have hdb : { db with thoughts := db.thoughts.map (fun t =>
      if t.id == id then { t with content := content, updatedAt := now } else t) } = db' := by
    injection h
  subst hdb
  refine ⟨rfl, rfl, ?_⟩
  intro t ht
  unfold Db.findThought at ht ⊢
  exact find?_map_updateById db.thoughts id
    (fun u => { u with content := content, updatedAt := now }) (fun u => rfl) t ht

/-- Witness for the amended C3 theorem on the concrete store `c3Db`. -/
theorem c3_update_content_amended_witness :
    c3DbAfter.events = c3Db.events ∧
    c3DbAfter.eventSeq = c3Db.eventSeq ∧
    (∀ t, c3Db.findThought 1 = some t →
        c3DbAfter.findThought 1 = some { t with content := "new content", updatedAt := 5 }) :=
  c3_update_content_amended 5 c3Db 1 "new content" c3DbAfter rfl

end Peony

namespace Peony

/-- **C6**: `resolve(id, next)` on an existing thought succeeds exactly
when the current state is `tended` and `next` is one of `resting`,
`evolved`, `released`, `archived`; when `next` = `resting` it recomputes
`eligibility_at` = now + settle-duration; when `next` is a terminal
state only the state and the update timestamp change; in all cases
`tend_counter` is unchanged (the updated rows carry the old counter),
and exactly one event is appended; with a current state other than
`tended` the operation is rejected. -/
theorem c6_resolve_strict (settle now : Nat) (db : Db) (id : Int) (next : State)
    (note : Option String) (t : Thought) (hid : 0 < id)
    (hfind : db.findThought id = some t) :
    ((∃ db', transitionPostTendResolutionStrict settle now db id next note = .ok db') ↔
      (t.currentState = State.tended ∧
        (next = State.resting ∨ next = State.evolved ∨
         next = State.released ∨ next = State.archived))) ∧
    (∀ db', transitionPostTendResolutionStrict settle now db id next note = .ok db' →
        (next = State.resting →
          db'.findThought id = some { t with
            currentState := State.resting, updatedAt := now,
            eligibilityAt := now + settle }) ∧
        (¬ next = State.resting →
          db'.findThought id = some { t with currentState := next, updatedAt := now }) ∧
        db'.events.length = db.events.length + 1) := by
  have hid2 : ¬ id ≤ 0 := not_le.mpr hid
  by_cases hnext : next = State.resting ∨ next = State.evolved ∨
      next = State.released ∨ next = State.archived
  · have hb : (next == State.resting || next == State.evolved ||
        next == State.released || next == State.archived) = true := by
      rcases hnext with h | h | h | h <;> subst h <;> rfl
    have hnb : ¬ ((!(next == State.resting || next == State.evolved ||
        next == State.released || next == State.archived)) = true) := by simp [hb]
    have hred0 : transitionPostTendResolutionStrict settle now db id next note =
        (if !(t.currentState == State.tended) then
          Except.error "post-tend transition: thought is not in tended state"
        else Except.ok (resolvedDb settle now db id next note t.currentState)) := by
      unfold transitionPostTendResolutionStrict
      rw [if_neg hid2, if_neg hnb, hfind]
    rw [hred0]
    by_cases htend : t.currentState = State.tended
    · have htb : ¬ ((!(t.currentState == State.tended)) = true) := by simp [htend]
      rw [if_neg htb]
      constructor
      · constructor
        · intro _
          exact ⟨htend, hnext⟩
        · intro _
          exact ⟨_, rfl⟩
      · intro db' hdb
        injection hdb with hdb
        subst hdb
        refine ⟨?_, ?_, ?_⟩
        · intro hrest
          subst hrest
          unfold resolvedDb resolvedThoughts Db.findThought
          have hbeq : (State.resting == State.resting) = true := by decide
          rw [if_pos hbeq]
          exact find?_map_updateById db.thoughts id
            (fun u => { u with currentState := State.resting, updatedAt := now,
                               eligibilityAt := now + settle })
            (fun u => rfl) t hfind
        · intro hnr
          have hbr : ¬ ((next == State.resting) = true) := by simp [hnr]
          unfold resolvedDb resolvedThoughts Db.findThought
          rw [if_neg hbr]
          exact find?_map_updateById db.thoughts id
            (fun u => { u with currentState := next, updatedAt := now })
            (fun u => rfl) t hfind
        · simp [resolvedDb]
    · have htb : ((!(t.currentState == State.tended)) = true) := by simp [htend]
      rw [if_pos htb]
      constructor
      · constructor
        · rintro ⟨db', hdb⟩
          exact Except.noConfusion hdb
        · rintro ⟨h1, _⟩
          exact absurd h1 htend
      · intro db' hdb
        exact Except.noConfusion hdb
  · have hb : (next == State.resting || next == State.evolved ||
        next == State.released || next == State.archived) = false := by
      cases next with
      | captured => rfl
      | tended => rfl
      | resting => exact absurd (Or.inl rfl) hnext
      | evolved => exact absurd (Or.inr (Or.inl rfl)) hnext
      | released => exact absurd (Or.inr (Or.inr (Or.inl rfl))) hnext
      | archived => exact absurd (Or.inr (Or.inr (Or.inr rfl))) hnext
    have hbt : ((!(next == State.resting || next == State.evolved ||
        next == State.released || next == State.archived)) = true) := by simp [hb]
    have hred0 : transitionPostTendResolutionStrict settle now db id next note =
        Except.error "post-tend transition: invalid next state" := by
      unfold transitionPostTendResolutionStrict
      rw [if_neg hid2, if_pos hbt]
    rw [hred0]
    constructor
    · constructor
      · rintro ⟨db', hdb⟩
        exact Except.noConfusion hdb
      · rintro ⟨_, h2⟩
        exact absurd h2 hnext
    · intro db' hdb
      exact Except.noConfusion hdb

/-- Witness for the C6 theorem on the concrete store `c6Db`: resolving
the tended thought 1 to `resting` at instant 7 with settle-duration 9. -/
theorem c6_resolve_strict_witness :
    c6Thought.currentState = State.tended ∧
    ((State.resting = State.resting →
        c6DbAfter.findThought 1 = some { c6Thought with
          currentState := State.resting, updatedAt := 7, eligibilityAt := 16 }) ∧
      (¬ State.resting = State.resting →
        c6DbAfter.findThought 1 = some { c6Thought with
          currentState := State.resting, updatedAt := 7 }) ∧
      c6DbAfter.events.length = c6Db.events.length + 1) :=
  ⟨rfl,
    (c6_resolve_strict 9 7 c6Db 1 State.resting none c6Thought (by decide) rfl).2
      c6DbAfter rfl⟩

end Peony

namespace Peony

/-- **C7**: for every non-empty content string, `create(content)`
followed by `get(id)` of the returned id yields a thought whose state is
`captured`, whose content equals the created content unchanged, and
whose `eligibility_at` equals `created_at` plus the settle-duration.
The freshness hypotheses state that the AUTOINCREMENT sequence is ahead
of every stored id and non-negative, which SQLite guarantees. -/
theorem c7_create_get_roundtrip (settle now : Nat) (db : Db) (content : String)
    (hc : content ≠ "")
    (hfresh : ∀ u ∈ db.thoughts, u.id ≠ db.thoughtSeq + 1)
    (hseq : 0 ≤ db.thoughtSeq) :
    ∃ id db' evs,
      createThought settle now db content = .ok (id, db') ∧
      getThought db' id = .ok (createdThought settle now db content, evs) ∧
      (createdThought settle now db content).currentState = State.captured ∧
      (createdThought settle now db content).content = content ∧
      (createdThought settle now db content).eligibilityAt
        = (createdThought settle now db content).createdAt + settle := by
  refine ⟨db.thoughtSeq + 1,
    { db with thoughts := db.thoughts ++ [createdThought settle now db content],
              thoughtSeq := db.thoughtSeq + 1 },
    sortByLe eventOrderLe (db.events.filter (fun e => e.thoughtId == db.thoughtSeq + 1)),
    ?_, ?_, rfl, rfl, rfl⟩
  · unfold createThought
    rw [if_neg hc]
  · have hid2 : ¬ (db.thoughtSeq + 1 ≤ 0) := by omega
    have hfound : Db.findThought
        { db with thoughts := db.thoughts ++ [createdThought settle now db content],
                  thoughtSeq := db.thoughtSeq + 1 }
        (db.thoughtSeq + 1) = some (createdThought settle now db content) := by
      unfold Db.findThought
      apply find?_append_right
      · intro y hy
        simp [hfresh y hy]
      · simp [createdThought]
    unfold getThought
    rw [if_neg hid2, hfound]

/-- Witness for the C7 theorem: creating "buy milk" at instant 7 with
settle-duration 9 in the empty store and reading it back. -/
theorem c7_create_get_roundtrip_witness :
    ∃ id db' evs,
      createThought 9 7 c7Db "buy milk" = .ok (id, db') ∧
      getThought db' id = .ok (createdThought 9 7 c7Db "buy milk", evs) ∧
      (createdThought 9 7 c7Db "buy milk").currentState = State.captured ∧
      (createdThought 9 7 c7Db "buy milk").content = "buy milk" ∧
      (createdThought 9 7 c7Db "buy milk").eligibilityAt
        = (createdThought 9 7 c7Db "buy milk").createdAt + 9 :=
  c7_create_get_roundtrip 9 7 c7Db "buy milk" (by decide) (by simp [c7Db]) (by decide)

/-- **C10**: the paginated listing `ListThoughtsByPagination` of
store.go never returns a thought whose current state is `archived`, for
every limit, offset and store contents; and the part_001 variant of the
same listing does return archived thoughts, so the two listing
embeddings are not equivalent. -/
theorem c10_list_never_returns_archived :
    (∀ (db : Db) (limit offset : Int) (ts : List Thought) (t : Thought),
        listThoughtsByPagination db limit offset = .ok ts → t ∈ ts →
        ¬ t.currentState = State.archived) ∧
    listThoughtsByPagination c10Db 10 0 ≠ listThoughtsByPaginationPart001 c10Db 10 0 := by
  constructor
  · intro db limit offset ts t hok hmem
    unfold listThoughtsByPagination at hok
    by_cases h1 : limit ≤ 0
    · rw [if_pos h1] at hok
      exact Except.noConfusion hok
    rw [if_neg h1] at hok
    by_cases h2 : offset < 0
    · rw [if_pos h2] at hok
      exact Except.noConfusion hok
    rw [if_neg h2] at hok
    injection hok with hok
    subst hok
    have hm1 := List.take_subset _ _ hmem
    have hm2 := List.drop_subset _ _ hm1
    obtain ⟨u, hu, rfl⟩ := List.mem_map.mp hm2
    have hu2 := (mem_sortByLe _ _ _).mp hu
    have hu3 := List.mem_filter.mp hu2
    have hu4 : ¬ u.currentState = State.archived := by simpa using hu3.2
    simpa [listedProjection] using hu4
  · intro hcon
    have h1 : listThoughtsByPagination c10Db 10 0 = .ok c10Listed := rfl
    have h2 : listThoughtsByPaginationPart001 c10Db 10 0
        = .ok [mkThought 1 "hidden" State.archived 0,
               mkThought 2 "visible" State.captured 0] := rfl
    rw [h1, h2] at hcon
    injection hcon with hcon
    exact absurd hcon (by decide)

/-- Witness for the C10 theorem: the store.go listing over `c10Db`
returns only the visible thought, and the theorem shows it is not
archived. -/
theorem c10_list_never_returns_archived_witness :
    listThoughtsByPagination c10Db 5 0 = .ok c10Listed ∧
    ¬ (mkThought 2 "visible" State.captured 0).currentState = State.archived :=
  ⟨rfl, c10_list_never_returns_archived.1 c10Db 5 0 c10Listed
      (mkThought 2 "visible" State.captured 0) rfl (by simp [c10Listed])⟩

end Peony
